import Mathlib

/-!
A shallow embedding of the step/hook registry of
`src/lib/registry.ts` (cypress-cucumber-preprocessor), together with
theorems checking the specification's claims about it.

JavaScript runtime values that matter to the registry's dynamic checks are
modelled with small inductive types; opaque callables (step and hook
implementations) are identified by a numeric id, and an invocation is
recorded as a value (receiver, implementation id, arguments) rather than
performed, so that what the registry calls, with which receiver and in
which order, is directly observable.  External collaborators (the
expression-matching library and the tag-expression language) are modelled
abstractly, following the contracts the specification states for them.
-/

namespace CCP

/-- The caller-supplied execution context (the `world` bound as `this`);
opaque to the registry, identified by a number. -/
abbrev World := Nat

/-- An opaque callable (step or hook implementation), identified by a
number. -/
abbrev Impl := Nat

/-- Values produced by parameter-type transforms and passed to step
implementations: strings, numbers, and tabular data. -/
inductive Value where
  | str (s : String)
  | int (n : Int)
  | table (rows : List (List String))
deriving DecidableEq

/-- A JavaScript runtime value as seen by a `typeof x === "boolean"` check:
`undefined` (the field was omitted), a boolean, or a value of any other
type.  Used for the optional `useForSnippets` / `preferForRegexpMatch`
fields of a parameter-type definition. -/
inductive JsVal where
  | undef
  | bool (b : Bool)
  | other
deriving DecidableEq

/-- A registered parameter type, as constructed by
`new ParameterType(name, regexp, null, transformer, useForSnippets,
preferForRegexpMatch)`.  The transform receives the execution context
(`getValue(world)`) and the raw capture. -/
structure ParameterType where
  name : String
  regexp : String
  transformer : World → String → Value
  useForSnippets : Bool
  preferForRegexpMatch : Bool

/-- The pattern a compiled expression was built from: the source string of a
templated `CucumberExpression`, or the source of a `RegularExpression`'s
regular expression. -/
inductive ExprSource where
  | cucumber (source : String)
  | regular (regexpSource : String)
deriving DecidableEq

/-- How the ambiguous-step diagnostic renders a definition's pattern:
`expression.source` for a `CucumberExpression`, and `${expression.regexp}`
for a `RegularExpression` (a JavaScript RegExp stringifies as
`/source/`). -/
def ExprSource.render : ExprSource → String
  | .cucumber source => source
  | .regular regexpSource => "/" ++ regexpSource ++ "/"

/-- Modelled from the spec: a CompiledExpression produced by the external
Expression Compiler (the `@cucumber/cucumber-expressions` library, an
external collaborator).  §3 makes it an opaque matcher over two variants;
§4.4 states that re-applying the matcher to a line extracts an ordered
sequence of typed values, each produced by feeding a raw capture through
its ParameterType's transform.  We keep the variant and its source in
`source`, the placeholder parameter types in left-to-right order in
`paramTypes`, and the raw-capture matcher in `rawCaptures`, where `none`
models the `null` return of `Expression.match`. -/
structure Expression where
  source : ExprSource
  paramTypes : List ParameterType
  rawCaptures : String → Option (List String)

/-- Modelled from the spec: `expression.match(text)` — `null` on no match,
otherwise one `Argument` per raw capture, whose `getValue(world)` feeds the
capture through the corresponding ParameterType's transform, in
left-to-right order. -/
def Expression.matchArgs (e : Expression) (text : String) :
    Option (List (World → Value)) :=
  (e.rawCaptures text).map fun caps =>
    List.zipWith (fun pt cap => fun world => pt.transformer world cap) e.paramTypes caps

/-- A stack frame as produced by `stacktrace-parser`: both the file and the
line number may be absent (`null`). -/
structure StackFrame where
  file : Option String
  lineNumber : Option Int
deriving DecidableEq

/-- JavaScript truthiness of a `string | null | undefined` value: present
and non-empty. -/
def jsTruthyStr : Option String → Bool
  | none => false
  | some s => s != ""

/-- JavaScript `x || d` on a `number | null` value: `0` and `null` are
falsy. -/
def jsOrInt (v : Option Int) (d : Int) : Int :=
  match v with
  | some n => if n = 0 then d else n
  | none => d

/-- JavaScript `x || d` on a `string | null` value: `""` and `null` are
falsy. -/
def jsOrStr (v : Option String) (d : String) : String :=
  match v with
  | some s => if s = "" then d else s
  | none => d

/-- The needle occurs at the head of the haystack (character lists). -/
def startsWithChars : List Char → List Char → Bool
  | [], _ => true
  | _ :: _, [] => false
  | a :: as, b :: bs => a == b && startsWithChars as bs

/-- The needle occurs somewhere in the haystack (character lists). -/
def hasSubChars (needle : List Char) : List Char → Bool
  | [] => needle.isEmpty
  | b :: bs => startsWithChars needle (b :: bs) || hasSubChars needle bs

/-- `haystack.includes(needle)` on strings. -/
def stringIncludes (haystack needle : String) : Bool :=
  hasSubChars needle.toList haystack.toList

/-- `isFileNameInpreprocessor(filepath)`:
`filepath.includes("@badeball/cypress-cucumber-preprocessor")`. -/
def isFileNameInpreprocessor (filepath : String) : Bool :=
  stringIncludes filepath ("@badeball/cypress-cucumber-preprocessor")

/-- The `{ line, file }` source location recorded on a step definition. -/
structure Location where
  line : Int
  file : String
deriving DecidableEq

/-- The predicate of `stackframes.find(...)` in `getDefinitionLineAndFile`:
a frame with a (truthy) file outside the preprocessor's own implementation
files. -/
def isUserFrame (frame : StackFrame) : Bool :=
  jsTruthyStr frame.file && !isFileNameInpreprocessor (frame.file.getD "")

/-- `getDefinitionLineAndFile()`, with the ambient call stack made explicit:
`none` models `new Error().stack` being absent (or empty, hence falsy),
`some frames` the parsed stack frames.  The source's `"unkown"` (sic)
default for a found frame's file is dead code, since the find predicate
requires a truthy file. -/
def getDefinitionLineAndFile (stack : Option (List StackFrame)) : Location :=
  match stack with
  | some stackframes =>
    match stackframes.find? isUserFrame with
    | some stackframe =>
      { line := jsOrInt stackframe.lineNumber 0,
        file := jsOrStr stackframe.file "unkown" }
    | none => { line := 0, file := "unknown" }
  | none => { line := 0, file := "unknown" }

/-- A compiled tag predicate, `node.evaluate(tags)`. -/
abbrev TagNode := List String → Bool

/-- The `noopNode` of `parseHookArguments`: `evaluate: () => true`. -/
def noopNode : TagNode := fun _ => true

/-- `IHook`: a compiled tag predicate and a hook implementation. -/
structure IHook where
  node : TagNode
  implementation : Impl

/-- `IStepDefinition`: source location, compiled expression and step
implementation. -/
structure IStepDefinition where
  file : String
  line : Int
  expression : Expression
  implementation : Impl

/-- The failures the registry throws (`new Error(message)`), named by the
specification's error taxonomy; `RegistryError.message` renders each
exactly as the source builds it. -/
inductive RegistryError where
  | undefinedStep (text : String)
  | ambiguousStep (text : String) (matching : List IStepDefinition)
  | invalidHookArguments
  | invalidStepPattern

/-- One line of the ambiguous-step diagnostic:
a space, the pattern rendering, then ` - ${file}:${line}`. -/
def IStepDefinition.diagnosticLine (sd : IStepDefinition) : String :=
  " " ++ sd.expression.source.render ++ " - " ++ sd.file ++ ":" ++ toString sd.line

/-- The message of each thrown `Error`, exactly as the source builds it. -/
def RegistryError.message : RegistryError → String
  | .undefinedStep text => "Step implementation missing for: " ++ text
  | .ambiguousStep text matching =>
    "Multiple matching step definitions for: " ++ text ++ "\n" ++
      String.intercalate "\n" (matching.map IStepDefinition.diagnosticLine)
  | .invalidHookArguments => "Unexpected argument for Before hook"
  | .invalidStepPattern => "Unexpected argument for step definition"

/-- The first argument of `defineBefore` / `defineAfter` at runtime: a
callable, an options object (with an optional `tags` field), or a value of
any other type (runtime misuse, the source's final `else`). -/
inductive HookArg where
  | fn (implementation : Impl)
  | options (tags : Option String)
  | other

/-- `parseHookArguments(optionsOrFn, maybeFn)`, with the external
tag-expression `parse` supplied as `tagParse`.  The second argument is
declared `maybeFn?: () => void`, so it is either absent (`undefined`,
falsy) or a callable (truthy). -/
def parseHookArguments (tagParse : String → TagNode)
    (optionsOrFn : HookArg) (maybeFn : Option Impl) : Except RegistryError IHook :=
  match optionsOrFn with
  | .fn implementation =>
    if maybeFn.isSome then
      .error .invalidHookArguments
    else
      .ok { implementation := implementation, node := noopNode }
  | .options tags =>
    match maybeFn with
    | some implementation =>
      .ok { node := if jsTruthyStr tags then tagParse (tags.getD "") else noopNode,
            implementation := implementation }
    | none => .error .invalidHookArguments
  | .other => .error .invalidHookArguments

/-- The `Registry` class state: the parameter type catalog, the step table
and the two hook tables, all insertion-ordered.  The built-in parameter
types preloaded by the external `ParameterTypeRegistry` are abstract: any
initial catalog is allowed. -/
structure Registry where
  parameterTypeRegistry : List ParameterType
  stepDefinitions : List IStepDefinition
  beforeHooks : List IHook
  afterHooks : List IHook

/-- Modelled from the spec: the external Expression Compiler.  Compiling a
pattern against the current catalog determines the placeholder parameter
types (left-to-right) and the raw-capture matcher of the resulting
CompiledExpression; the compiler itself is abstract and the registry is
parametric in it. -/
structure ExpressionCompiler where
  cucumber : String → List ParameterType → List ParameterType × (String → Option (List String))
  regular : String → List ParameterType → List ParameterType × (String → Option (List String))

/-- `new CucumberExpression(description, parameterTypeRegistry)`: a
templated matcher, whose recorded source is the pattern string. -/
def ExpressionCompiler.newCucumberExpression (c : ExpressionCompiler)
    (description : String) (catalog : List ParameterType) : Expression :=
  { source := .cucumber description,
    paramTypes := (c.cucumber description catalog).1,
    rawCaptures := (c.cucumber description catalog).2 }

/-- `new RegularExpression(description, parameterTypeRegistry)`: a
literal-regex matcher, whose recorded source is the regular expression. -/
def ExpressionCompiler.newRegularExpression (c : ExpressionCompiler)
    (description : String) (catalog : List ParameterType) : Expression :=
  { source := .regular description,
    paramTypes := (c.regular description catalog).1,
    rawCaptures := (c.regular description catalog).2 }

/-- The `description` argument of `defineStep` at runtime: a string, a
RegExp (modelled by its source), or a value of any other type (runtime
misuse, the source's final `else`). -/
inductive StepPattern where
  | str (s : String)
  | regexp (source : String)
  | other
deriving DecidableEq

/-- `Registry.defineStep(description, implementation)`; the ambient call
stack read by `getDefinitionLineAndFile` and the external expression
compiler are explicit arguments. -/
def Registry.defineStep (c : ExpressionCompiler) (stack : Option (List StackFrame))
    (r : Registry) (description : StepPattern) (implementation : Impl) :
    Except RegistryError Registry :=
  let loc := getDefinitionLineAndFile stack
  match description with
  | .str s =>
    .ok { r with stepDefinitions := r.stepDefinitions ++
      [{ line := loc.line, file := loc.file,
         expression := c.newCucumberExpression s r.parameterTypeRegistry,
         implementation := implementation }] }
  | .regexp source =>
    .ok { r with stepDefinitions := r.stepDefinitions ++
      [{ line := loc.line, file := loc.file,
         expression := c.newRegularExpression source r.parameterTypeRegistry,
         implementation := implementation }] }
  | .other => .error .invalidStepPattern

/-- `methods.Given`, bound in the constructor to `this.defineStep`. -/
def Registry.Given := @Registry.defineStep

/-- `methods.When`, bound in the constructor to `this.defineStep`. -/
def Registry.When := @Registry.defineStep

/-- `methods.Then`, bound in the constructor to `this.defineStep`. -/
def Registry.Then := @Registry.defineStep

/-- `IParameterTypeDefinition`, with the two optional boolean fields kept as
runtime values, since a `typeof` check is all the source inspects them
with. -/
structure IParameterTypeDefinition where
  name : String
  regexp : String
  transformer : World → String → Value
  useForSnippets : JsVal
  preferForRegexpMatch : JsVal

/-- `Registry.defineParameterType`: defaults the two flags when they are
not booleans, and registers the `ParameterType` with the external catalog
(modelled as appending; the external library's duplicate-name policy is out
of scope). -/
def Registry.defineParameterType (r : Registry) (d : IParameterTypeDefinition) : Registry :=
  { r with parameterTypeRegistry := r.parameterTypeRegistry ++
    [{ name := d.name, regexp := d.regexp, transformer := d.transformer,
       useForSnippets := match d.useForSnippets with | .bool b => b | _ => true,
       preferForRegexpMatch := match d.preferForRegexpMatch with | .bool b => b | _ => false }] }

/-- `Registry.defineBefore`: parse the polymorphic arguments and push the
hook onto the before table. -/
def Registry.defineBefore (tagParse : String → TagNode) (r : Registry)
    (optionsOrFn : HookArg) (maybeFn : Option Impl) : Except RegistryError Registry :=
  (parseHookArguments tagParse optionsOrFn maybeFn).map fun h =>
    { r with beforeHooks := r.beforeHooks ++ [h] }

/-- `Registry.defineAfter`: parse the polymorphic arguments and push the
hook onto the after table. -/
def Registry.defineAfter (tagParse : String → TagNode) (r : Registry)
    (optionsOrFn : HookArg) (maybeFn : Option Impl) : Except RegistryError Registry :=
  (parseHookArguments tagParse optionsOrFn maybeFn).map fun h =>
    { r with afterHooks := r.afterHooks ++ [h] }

/-- The `matchingStepDefinitions` filter of `resolveStepDefintion`: the
step definitions whose matcher matches `text`, in table order (a `null`
return of `match` is falsy, any array — even empty — is truthy). -/
def Registry.matchingDefs (r : Registry) (text : String) : List IStepDefinition :=
  r.stepDefinitions.filter fun stepDefinition =>
    (stepDefinition.expression.matchArgs text).isSome

/-- `Registry.resolveStepDefintion(text)` (sic): zero matches throws the
undefined-step error, more than one the ambiguous-step error, exactly one
is returned. -/
def Registry.resolveStepDefintion (r : Registry) (text : String) :
    Except RegistryError IStepDefinition :=
  match r.matchingDefs text with
  | [] => .error (.undefinedStep text)
  | [stepDefinition] => .ok stepDefinition
  | more => .error (.ambiguousStep text more)

/-- A recorded invocation of a step implementation,
`implementation.apply(world, args)`: receiver, callee and positional
arguments. -/
structure StepCall where
  receiver : World
  implementation : Impl
  args : List Value
deriving DecidableEq

/-- The trailing structured argument of `Step` at runtime:
`argument?: DataTable | string`. -/
inductive StepArgument where
  | dataTable (rows : List (List String))
  | docString (s : String)
deriving DecidableEq

/-- JavaScript truthiness of a `DataTable | string | undefined` value:
objects are truthy, strings are truthy unless empty. -/
def jsTruthyArgument : Option StepArgument → Bool
  | none => false
  | some (.dataTable _) => true
  | some (.docString s) => s != ""

/-- The trailing argument as the value the implementation receives. -/
def StepArgument.toValue : StepArgument → Value
  | .dataTable rows => .table rows
  | .docString s => .str s

/-- `Registry.runStepDefininition(world, text, argument)` (sic): resolve
the line, re-apply the winning matcher to extract the typed values
(`match(text).map((match) => match.getValue(world))`; after a successful
resolve the re-match cannot be `null`, so the `[]` default is dead code),
push the trailing `argument` if truthy (`if (argument)`), and invoke.  The
invocation is returned as a `StepCall` record. -/
def Registry.runStepDefininition (r : Registry) (world : World) (text : String)
    (argument : Option StepArgument) : Except RegistryError StepCall :=
  (r.resolveStepDefintion text).map fun stepDefinition =>
    let extracted := ((stepDefinition.expression.matchArgs text).getD []).map fun m => m world
    let args := match argument with
      | some a => if jsTruthyArgument (some a) then extracted ++ [a.toValue] else extracted
      | none => extracted
    { receiver := world, implementation := stepDefinition.implementation, args := args }

/-- A recorded invocation of a hook implementation,
`hook.implementation.call(world)`: receiver bound, no arguments. -/
structure HookCall where
  receiver : World
  implementation : Impl
deriving DecidableEq

/-- `Registry.runBeforeHooks(world, tags)`: filter the before table by tag
predicate, then invoke each surviving hook in order; the invocations are
returned as records. -/
def Registry.runBeforeHooks (r : Registry) (world : World) (tags : List String) :
    List HookCall :=
  (r.beforeHooks.filter fun beforeHook => beforeHook.node tags).map
    fun hook => { receiver := world, implementation := hook.implementation }

/-- `Registry.runAfterHooks(world, tags)`: same as the before variant, on
the after table (the source also names its filter binder `beforeHook`
there). -/
def Registry.runAfterHooks (r : Registry) (world : World) (tags : List String) :
    List HookCall :=
  (r.afterHooks.filter fun beforeHook => beforeHook.node tags).map
    fun hook => { receiver := world, implementation := hook.implementation }

/-! ### Test fixtures used by witness and counterexample theorems -/

/-- Fixture helper: the number denoted by a list of decimal digits
(structurally recursive, so concrete fixtures evaluate by `rfl`). -/
def digitsToNat (acc : Nat) : List Char → Nat
  | [] => acc
  | c :: cs => digitsToNat (acc * 10 + (c.toNat - 48)) cs

/-- Fixture: an `{int}`-like parameter type turning the raw capture into a
number. -/
def intParameterType : ParameterType :=
  { name := "int", regexp := "\\d+",
    transformer := fun _ cap => .int (digitsToNat 0 cap.toList),
    useForSnippets := true, preferForRegexpMatch := false }

/-- Fixture: a matcher for the templated pattern `there are {int} items`,
with one placeholder. -/
def thereAreItemsExpression : Expression :=
  { source := .cucumber "there are {int} items",
    paramTypes := [intParameterType],
    rawCaptures := fun text => if text = "there are 5 items" then some ["5"] else none }

/-- Fixture: the step definition registered for `there are {int} items`. -/
def itemsStep : IStepDefinition :=
  { file := "steps.js", line := 3, expression := thereAreItemsExpression,
    implementation := 7 }

/-- Fixture: a registry holding only `itemsStep`. -/
def itemsRegistry : Registry :=
  { parameterTypeRegistry := [intParameterType], stepDefinitions := [itemsStep],
    beforeHooks := [], afterHooks := [] }

/-- Fixture: a templated matcher for the literal line `a step`. -/
def aStepCucumberExpression : Expression :=
  { source := .cucumber "a step", paramTypes := [],
    rawCaptures := fun text => if text = "a step" then some [] else none }

/-- Fixture: a literal-regex matcher that also matches `a step`. -/
def aStepRegularExpression : Expression :=
  { source := .regular "^a step$", paramTypes := [],
    rawCaptures := fun text => if text = "a step" then some [] else none }

/-- Fixture: first of two colliding step definitions. -/
def ambiguousFirstStep : IStepDefinition :=
  { file := "steps.js", line := 1, expression := aStepCucumberExpression,
    implementation := 1 }

/-- Fixture: second of two colliding step definitions. -/
def ambiguousSecondStep : IStepDefinition :=
  { file := "other_steps.js", line := 12, expression := aStepRegularExpression,
    implementation := 2 }

/-- Fixture: a registry in which `a step` matches two definitions. -/
def ambiguousRegistry : Registry :=
  { parameterTypeRegistry := [],
    stepDefinitions := [ambiguousFirstStep, ambiguousSecondStep],
    beforeHooks := [], afterHooks := [] }

/-- Fixture: a placeholder-free matcher for the line `a doc string step`. -/
def docStringStepExpression : Expression :=
  { source := .cucumber "a doc string step", paramTypes := [],
    rawCaptures := fun text => if text = "a doc string step" then some [] else none }

/-- Fixture: the step definition registered for `a doc string step`. -/
def docStringStep : IStepDefinition :=
  { file := "steps.js", line := 5, expression := docStringStepExpression,
    implementation := 9 }

/-- Fixture: a registry holding only `docStringStep`. -/
def docRegistry : Registry :=
  { parameterTypeRegistry := [], stepDefinitions := [docStringStep],
    beforeHooks := [], afterHooks := [] }

/-! ### The claims -/

/-- C1: resolution enforces exactly-one-match semantics.  With zero
matching step definitions `resolveStepDefintion` fails with the
undefined-step error, whose message identifies the unmatched line text;
with exactly one it returns that definition; with more than one it fails
with the ambiguous-step error and never returns a definition (in
particular it never picks one by registration order). -/
theorem resolveStepDefintion_exactly_one_match (r : Registry) (text : String) :
    (r.matchingDefs text = [] →
      r.resolveStepDefintion text = .error (.undefinedStep text) ∧
      (RegistryError.undefinedStep text).message =
        "Step implementation missing for: " ++ text) ∧
    (∀ sd, r.matchingDefs text = [sd] → r.resolveStepDefintion text = .ok sd) ∧
    (1 < (r.matchingDefs text).length →
      r.resolveStepDefintion text = .error (.ambiguousStep text (r.matchingDefs text)) ∧
      ∀ sd, r.resolveStepDefintion text ≠ .ok sd) := by
  refine ⟨fun h => ⟨?_, rfl⟩, fun sd h => ?_, fun h => ?_⟩
  · simp only [Registry.resolveStepDefintion, h]
  · simp only [Registry.resolveStepDefintion, h]
  · rcases hm : r.matchingDefs text with - | ⟨a, rest⟩
    · rw [hm] at h; simp at h
    · rcases rest with - | ⟨b, l⟩
      · rw [hm] at h; simp at h
      · refine ⟨?_, fun sd hsd => ?_⟩
        · simp only [Registry.resolveStepDefintion, hm]
        · simp only [Registry.resolveStepDefintion, hm] at hsd
          exact Except.noConfusion hsd

/-- C1 witness: in the two-definition fixture the line `a step` is
ambiguous and resolution refuses to return either definition. -/
theorem resolveStepDefintion_exactly_one_match_witness :
    ambiguousRegistry.resolveStepDefintion "a step" =
      .error (.ambiguousStep "a step" (ambiguousRegistry.matchingDefs "a step")) ∧
    ∀ sd, ambiguousRegistry.resolveStepDefintion "a step" ≠ .ok sd :=
  (resolveStepDefintion_exactly_one_match ambiguousRegistry "a step").2.2 (by decide)

/-- C2: a line matching exactly one templated pattern with N placeholders
is run with exactly N positional arguments, the i-th obtained by feeding
the i-th raw capture through the i-th parameter type's transform
(left-to-right pattern order), with the caller-supplied context bound as
the call receiver; a trailing structured argument, when pushed at all,
comes after the N pattern-derived values. -/
theorem runStepDefininition_templated_args (r : Registry) (world : World)
    (text : String) (sd : IStepDefinition) (caps : List String)
    (h1 : r.matchingDefs text = [sd])
    (h2 : sd.expression.rawCaptures text = some caps)
    (h3 : caps.length = sd.expression.paramTypes.length) :
    r.runStepDefininition world text none =
      .ok { receiver := world, implementation := sd.implementation,
            args := List.zipWith (fun pt cap => pt.transformer world cap)
              sd.expression.paramTypes caps } ∧
    (List.zipWith (fun pt cap => pt.transformer world cap)
        sd.expression.paramTypes caps).length = sd.expression.paramTypes.length ∧
    ∀ a : StepArgument, r.runStepDefininition world text (some a) =
      .ok { receiver := world, implementation := sd.implementation,
            args := List.zipWith (fun pt cap => pt.transformer world cap)
                sd.expression.paramTypes caps ++
              (if jsTruthyArgument (some a) then [a.toValue] else []) } := by
  have hres : r.resolveStepDefintion text = .ok sd := by
    simp only [Registry.resolveStepDefintion, h1]
  have hargs : ((sd.expression.matchArgs text).getD []).map (fun m => m world) =
      List.zipWith (fun pt cap => pt.transformer world cap)
        sd.expression.paramTypes caps := by
    rw [Expression.matchArgs, h2]
    simp [List.map_zipWith]
  refine ⟨?_, ?_, fun a => ?_⟩
  · simp only [Registry.runStepDefininition, hres, Except.map, hargs]
  · rw [List.length_zipWith, h3, Nat.min_self]
  · by_cases ht : jsTruthyArgument (some a)
    · simp only [Registry.runStepDefininition, hres, Except.map, hargs, ht, if_true]
    · rw [Bool.not_eq_true] at ht
      simp only [Registry.runStepDefininition, hres, Except.map, hargs, ht,
        Bool.false_eq_true, if_false, List.append_nil]

/-- C2 witness: `there are 5 items` against the fixture pattern
`there are {int} items` invokes implementation 7 on receiver 1 with the
single transformed argument, the number 5. -/
theorem runStepDefininition_templated_args_witness :
    itemsRegistry.runStepDefininition 1 "there are 5 items" none =
      .ok { receiver := 1, implementation := 7, args := [Value.int 5] } := by
  have h := (runStepDefininition_templated_args itemsRegistry 1 "there are 5 items"
    itemsStep ["5"] rfl rfl rfl).1
  rw [show List.zipWith (fun pt cap => pt.transformer 1 cap)
    itemsStep.expression.paramTypes ["5"] = [Value.int 5] from rfl] at h
  exact h

/-- C3: before/after hook execution invokes exactly the hooks of the
respective table whose tag predicate accepts the caller-supplied tag set,
in registration order, each bound to the supplied context with no
arguments; a hook registered with the single-callable shape (no tags) runs
for every tag set, and of two matching hooks the one registered earlier is
invoked earlier. -/
theorem runHooks_filtered_in_order (tagParse : String → TagNode) (r : Registry)
    (world : World) (tags : List String) :
    r.runBeforeHooks world tags =
      (r.beforeHooks.filter fun h => h.node tags).map
        (fun h => { receiver := world, implementation := h.implementation }) ∧
    r.runAfterHooks world tags =
      (r.afterHooks.filter fun h => h.node tags).map
        (fun h => { receiver := world, implementation := h.implementation }) ∧
    (∀ c ∈ r.runBeforeHooks world tags, c.receiver = world) ∧
    (∀ f r1, r.defineBefore tagParse (.fn f) none = .ok r1 →
      r1.runBeforeHooks world tags =
        r.runBeforeHooks world tags ++ [{ receiver := world, implementation := f }]) ∧
    (∀ h1 h2 : IHook, h1.node tags = true → h2.node tags = true →
      Registry.runBeforeHooks
          { r with beforeHooks := r.beforeHooks ++ [h1, h2] } world tags =
        r.runBeforeHooks world tags ++
          [{ receiver := world, implementation := h1.implementation },
           { receiver := world, implementation := h2.implementation }]) := by
  refine ⟨rfl, rfl, fun c hc => ?_, fun f r1 h => ?_, fun h1 h2 e1 e2 => ?_⟩
  · rcases List.mem_map.1 hc with ⟨hk, -, rfl⟩
    rfl
  · simp only [Registry.defineBefore, parseHookArguments, Option.isSome_none,
      Bool.false_eq_true, if_false, Except.map, Except.ok.injEq] at h
    subst h
    simp [Registry.runBeforeHooks, List.filter_append, noopNode]
  · simp [Registry.runBeforeHooks, List.filter_append, e1, e2]

/-- C3 witness: with the before table holding an unconditional hook and a
hook gated on `@a`, running with tag set `["@a"]` invokes both in
registration order on the supplied context, and running with `[]` invokes
only the unconditional one. -/
theorem runHooks_filtered_in_order_witness :
    Registry.runBeforeHooks
        { parameterTypeRegistry := [], stepDefinitions := [],
          beforeHooks := [{ node := noopNode, implementation := 4 },
            { node := fun tags => tags.contains "@a", implementation := 5 }],
          afterHooks := [] } 2 ["@a"] =
      [{ receiver := 2, implementation := 4 }, { receiver := 2, implementation := 5 }] ∧
    Registry.runBeforeHooks
        { parameterTypeRegistry := [], stepDefinitions := [],
          beforeHooks := [{ node := noopNode, implementation := 4 },
            { node := fun tags => tags.contains "@a", implementation := 5 }],
          afterHooks := [] } 2 [] =
      [{ receiver := 2, implementation := 4 }] := by
  have h := runHooks_filtered_in_order (fun _ => noopNode)
    { parameterTypeRegistry := [], stepDefinitions := [],
      beforeHooks := [{ node := noopNode, implementation := 4 },
        { node := fun tags => tags.contains "@a", implementation := 5 }],
      afterHooks := [] } 2 ["@a"]
  exact ⟨h.1.trans rfl, rfl⟩

/-- C4: when more than one step definition matches, the ambiguous-step
error's message enumerates every colliding definition, one per line, each
rendered as the definition's pattern source (or regular expression)
followed by ` - file:line`. -/
theorem resolveStepDefintion_ambiguous_message (r : Registry) (text : String)
    (h : 1 < (r.matchingDefs text).length) :
    r.resolveStepDefintion text = .error (.ambiguousStep text (r.matchingDefs text)) ∧
    (RegistryError.ambiguousStep text (r.matchingDefs text)).message =
      "Multiple matching step definitions for: " ++ text ++ "\n" ++
        String.intercalate "\n" ((r.matchingDefs text).map fun sd =>
          " " ++ sd.expression.source.render ++ " - " ++ sd.file ++ ":" ++
            toString sd.line) :=
  ⟨((resolveStepDefintion_exactly_one_match r text).2.2 h).1, rfl⟩

/-- C4 witness: the two colliding fixture definitions are both listed in
the diagnostic, one per line, pattern first, then ` - file:line`. -/
theorem resolveStepDefintion_ambiguous_message_witness :
    ambiguousRegistry.resolveStepDefintion "a step" =
      .error (.ambiguousStep "a step" (ambiguousRegistry.matchingDefs "a step")) ∧
    (RegistryError.ambiguousStep "a step"
        (ambiguousRegistry.matchingDefs "a step")).message =
      "Multiple matching step definitions for: a step\n a step - steps.js:1\n /^a step$/ - other_steps.js:12" := by
  refine ⟨(resolveStepDefintion_ambiguous_message ambiguousRegistry "a step" (by decide)).1, ?_⟩
  rfl

/-- C5: hook registration accepts exactly two argument shapes — a single
callable (an unconditional hook) or an options object plus a callable (a
hook gated by the compiled tag expression when a non-empty `tags` is
supplied, unconditional when it is omitted) — and fails with the
invalid-hook-arguments error for every other shape, including a callable
followed by a second callable and a non-object, non-callable first
argument; identically for the before and after tables. -/
theorem defineHooks_argument_shapes (tagParse : String → TagNode) (r : Registry) :
    (∀ f, r.defineBefore tagParse (.fn f) none =
      .ok { r with beforeHooks := r.beforeHooks ++
        [{ node := noopNode, implementation := f }] }) ∧
    (∀ tags f, r.defineBefore tagParse (.options tags) (some f) =
      .ok { r with beforeHooks := r.beforeHooks ++
        [{ node := if jsTruthyStr tags then tagParse (tags.getD "") else noopNode,
           implementation := f }] }) ∧
    (∀ f g, r.defineBefore tagParse (.fn f) (some g) = .error .invalidHookArguments) ∧
    (∀ tags, r.defineBefore tagParse (.options tags) none = .error .invalidHookArguments) ∧
    (∀ m, r.defineBefore tagParse .other m = .error .invalidHookArguments) ∧
    (∀ f, r.defineAfter tagParse (.fn f) none =
      .ok { r with afterHooks := r.afterHooks ++
        [{ node := noopNode, implementation := f }] }) ∧
    (∀ tags f, r.defineAfter tagParse (.options tags) (some f) =
      .ok { r with afterHooks := r.afterHooks ++
        [{ node := if jsTruthyStr tags then tagParse (tags.getD "") else noopNode,
           implementation := f }] }) ∧
    (∀ f g, r.defineAfter tagParse (.fn f) (some g) = .error .invalidHookArguments) ∧
    (∀ tags, r.defineAfter tagParse (.options tags) none = .error .invalidHookArguments) ∧
    (∀ m, r.defineAfter tagParse .other m = .error .invalidHookArguments) :=
  ⟨fun _ => rfl, fun _ _ => rfl, fun _ _ => rfl, fun _ => rfl, fun _ => rfl,
   fun _ => rfl, fun _ _ => rfl, fun _ _ => rfl, fun _ => rfl, fun _ => rfl⟩

/-- C6 counterexample: the claim fails on the code.  A caller-supplied
trailing doc-string argument whose content is the empty string is dropped
(JavaScript `if (argument)` truthiness), not appended: the implementation
is invoked with no arguments at all. -/
theorem runStepDefininition_drops_empty_docstring :
    docRegistry.runStepDefininition 0 "a doc string step" (some (.docString "")) =
      .ok { receiver := 0, implementation := 9, args := [] } := rfl

/-- C6 amended: a caller-supplied trailing structured argument is appended
as the final positional argument, after all pattern-derived values,
whenever it is truthy — that is, for every data table and for every
non-empty doc-string content; an empty-string doc-string argument is
dropped. -/
theorem runStepDefininition_appends_truthy_argument (r : Registry) (world : World)
    (text : String) (a : StepArgument) (sd : IStepDefinition)
    (h : r.resolveStepDefintion text = .ok sd) :
    r.runStepDefininition world text (some a) =
      .ok { receiver := world, implementation := sd.implementation,
            args := (((sd.expression.matchArgs text).getD []).map fun m => m world) ++
              (if jsTruthyArgument (some a) then [a.toValue] else []) } := by
  by_cases ht : jsTruthyArgument (some a)
  · simp only [Registry.runStepDefininition, h, Except.map, ht, if_true]
  · rw [Bool.not_eq_true] at ht
    simp only [Registry.runStepDefininition, h, Except.map, ht, Bool.false_eq_true,
      if_false, List.append_nil]

/-- C6 witness: a data-table argument (truthy) is appended after the
pattern-derived values, here as the sole argument of a placeholder-free
step. -/
theorem runStepDefininition_appends_truthy_argument_witness :
    docRegistry.runStepDefininition 0 "a doc string step"
        (some (.dataTable [["foo"]])) =
      .ok { receiver := 0, implementation := 9, args := [Value.table [["foo"]]] } := by
  exact runStepDefininition_appends_truthy_argument docRegistry 0 "a doc string step"
    (.dataTable [["foo"]]) docStringStep rfl

/-- C7: `defineStep` fails with the invalid-step-pattern error whenever the
pattern is neither a string nor a regular expression; a string pattern
compiles to a templated (CucumberExpression) matcher, a regular expression
to a literal-regex (RegularExpression) matcher, and in both cases exactly
one new step definition is appended to the step table. -/
theorem defineStep_pattern_classification (c : ExpressionCompiler)
    (stack : Option (List StackFrame)) (r : Registry) (implementation : Impl) :
    (∀ s, Registry.defineStep c stack r (.str s) implementation =
      .ok { r with stepDefinitions := r.stepDefinitions ++
        [{ line := (getDefinitionLineAndFile stack).line,
           file := (getDefinitionLineAndFile stack).file,
           expression := c.newCucumberExpression s r.parameterTypeRegistry,
           implementation := implementation }] } ∧
      (c.newCucumberExpression s r.parameterTypeRegistry).source = .cucumber s) ∧
    (∀ re, Registry.defineStep c stack r (.regexp re) implementation =
      .ok { r with stepDefinitions := r.stepDefinitions ++
        [{ line := (getDefinitionLineAndFile stack).line,
           file := (getDefinitionLineAndFile stack).file,
           expression := c.newRegularExpression re r.parameterTypeRegistry,
           implementation := implementation }] } ∧
      (c.newRegularExpression re r.parameterTypeRegistry).source = .regular re) ∧
    Registry.defineStep c stack r .other implementation = .error .invalidStepPattern :=
  ⟨fun _ => ⟨rfl, rfl⟩, fun _ => ⟨rfl, rfl⟩, rfl⟩

/-- C8: `defineParameterType` registers exactly one new parameter type;
`useForSnippets` defaults to `true` and `preferForRegexpMatch` to `false`
when omitted or not a boolean, and explicitly supplied booleans pass
through unchanged. -/
theorem defineParameterType_defaults (r : Registry) (d : IParameterTypeDefinition) :
    ∃ pt, (r.defineParameterType d).parameterTypeRegistry =
        r.parameterTypeRegistry ++ [pt] ∧
      pt.name = d.name ∧ pt.regexp = d.regexp ∧
      ((d.useForSnippets = .undef ∨ d.useForSnippets = .other) →
        pt.useForSnippets = true) ∧
      (∀ b, d.useForSnippets = .bool b → pt.useForSnippets = b) ∧
      ((d.preferForRegexpMatch = .undef ∨ d.preferForRegexpMatch = .other) →
        pt.preferForRegexpMatch = false) ∧
      (∀ b, d.preferForRegexpMatch = .bool b → pt.preferForRegexpMatch = b) := by
  refine ⟨_, rfl, rfl, rfl, ?_, ?_, ?_, ?_⟩
  · rintro (h | h) <;> simp [h]
  · rintro b h; simp [h]
  · rintro (h | h) <;> simp [h]
  · rintro b h; simp [h]

/-- C9: the three domain-flavored registration entry points are the same
function as `defineStep`: registering through any of them produces exactly
the state `defineStep` produces. -/
theorem given_when_then_equal_defineStep (c : ExpressionCompiler)
    (stack : Option (List StackFrame)) (r : Registry)
    (description : StepPattern) (implementation : Impl) :
    Registry.Given c stack r description implementation =
        Registry.defineStep c stack r description implementation ∧
    Registry.When c stack r description implementation =
        Registry.defineStep c stack r description implementation ∧
    Registry.Then c stack r description implementation =
        Registry.defineStep c stack r description implementation :=
  ⟨rfl, rfl, rfl⟩

/-- C10: source-location capture is total and never fails registration.
When no stack frame with a (present, non-empty) file outside the
preprocessor's own files exists, the recorded location is the fallback
`{file := "unknown", line := 0}`; when such a frame is found, its file is
necessarily present and recorded, and a missing line number defaults to 0;
and `defineStep` succeeds on every stack for every valid pattern. -/
theorem getDefinitionLineAndFile_total_and_fallback (stack : Option (List StackFrame)) :
    ((stack.bind fun frames => frames.find? isUserFrame) = none →
      getDefinitionLineAndFile stack = { line := 0, file := "unknown" }) ∧
    (∀ frames frame, stack = some frames → frames.find? isUserFrame = some frame →
      ∃ f, frame.file = some f ∧ f ≠ "" ∧
        getDefinitionLineAndFile stack =
          { line := jsOrInt frame.lineNumber 0, file := f } ∧
        (frame.lineNumber = none → jsOrInt frame.lineNumber 0 = 0)) ∧
    (∀ c r implementation, ∀ description : StepPattern, description ≠ .other →
      ∃ r1, Registry.defineStep c stack r description implementation = .ok r1) := by
  refine ⟨fun h => ?_, fun frames frame hs hf => ?_, fun c r implementation d hd => ?_⟩
  · cases stack with
    | none => rfl
    | some frames =>
      have h2 : frames.find? isUserFrame = none := h
      simp only [getDefinitionLineAndFile, h2]
  · subst hs
    have hp : isUserFrame frame = true := List.find?_some hf
    rw [isUserFrame, Bool.and_eq_true] at hp
    cases hfile : frame.file with
    | none => rw [hfile] at hp; simp [jsTruthyStr] at hp
    | some f =>
      rw [hfile] at hp
      have hne : f ≠ "" := by
        have h1 : (f != "") = true := hp.1
        intro hf0
        rw [hf0] at h1
        exact absurd h1 (by decide)
      refine ⟨f, rfl, hne, ?_, fun hn => by simp [jsOrInt, hn]⟩
      simp only [getDefinitionLineAndFile, hf, hfile, jsOrStr, if_neg hne]
  · cases d with
    | str s => exact ⟨_, rfl⟩
    | regexp re => exact ⟨_, rfl⟩
    | other => exact absurd rfl hd

end CCP
